import Mathlib

/-!
Verification of the ai-input submission controller.

The development embeds, as executable Lean definitions, the three subsystems
of the submission orchestrator:

* the sliding-window + cooldown rate limiter (the `cleanupAndCount` variant
  bundled with `types.ts`, and the clamped `getRequestsRemaining` of the
  other `useRateLimiter` variant);
* the audio capture engine (the `useAudioRecorder` variant exposing
  `cancelRecording`, an internal `cleanup`, and a max-duration timeout);
* the orchestrator hook built on `pendingAudioSubmitRef` (the variant whose
  stop path marks a pending commit and whose effect dispatches the audio
  submission once the finalized blob is published).

Time is modelled as `Int` (the value of `Date.now()`).  Asynchronous
completions (the MediaRecorder `onstop` event, transport settlement, the
max-duration timeout) are modelled as externally delivered events; the
React effects of the orchestrator are re-run after every event, which is
faithful because the dependency list of the dispatch effect contains a
callback recreated on every render, so the effect body re-runs whenever
the component renders.
-/

/-- Rate-limit configuration (`cooldownMs`, `maxRequests`, `windowMs`). -/
structure RateLimitConfig where
  cooldownMs : Int
  maxRequests : Int
  windowMs : Int
deriving DecidableEq, Repr

/-- Mutable state of the rate limiter: the recorded request timestamps and
the end instant of the current cooldown (`cooldownEnd`, 0 when none). -/
structure RateLimiterState where
  requestTimestamps : List Int
  cooldownEnd : Int
deriving DecidableEq, Repr

/-- The limiter state at construction / after `reset`. -/
def rlInit : RateLimiterState := ⟨[], 0⟩

/-- Timestamps still inside the sliding window at instant `now`
(`ts > now - windowMs`, as in `cleanupAndCount`). -/
def cleanupTimestamps (cfg : RateLimitConfig) (now : Int) (l : List Int) : List Int :=
  l.filter fun ts => decide (now - cfg.windowMs < ts)

/-- `cleanupAndCount` of the `types.ts` limiter: `maxRequests` minus the
number of timestamps inside the window.  Note: no clamping to zero. -/
def cleanupAndCount (cfg : RateLimitConfig) (now : Int) (st : RateLimiterState) : Int :=
  cfg.maxRequests - (cleanupTimestamps cfg now st.requestTimestamps).length

/-- `canRequest` of the `types.ts` limiter: false while `now < cooldownEnd`,
otherwise true iff at least one slot remains in the window. -/
def rlCanRequest (cfg : RateLimitConfig) (now : Int) (st : RateLimiterState) : Bool :=
  if now < st.cooldownEnd then false
  else decide (0 < cleanupAndCount cfg now st)

/-- `recordRequest`: append the current instant and restart the cooldown
(`cooldownEnd := now + cooldownMs`, unconditionally overwriting). -/
def rlRecordRequest (cfg : RateLimitConfig) (now : Int) (st : RateLimiterState) :
    RateLimiterState :=
  ⟨st.requestTimestamps ++ [now], now + cfg.cooldownMs⟩

/-- Window filter of the other `useRateLimiter` variant
(`now - timestamp < windowMs`). -/
def cleanupTimestamps002 (cfg : RateLimitConfig) (now : Int) (l : List Int) : List Int :=
  l.filter fun ts => decide (now - ts < cfg.windowMs)

/-- `getRequestsRemaining` of the other `useRateLimiter` variant:
`Math.max(0, maxRequests - timestamps.length)` after pruning. -/
def getRequestsRemaining002 (cfg : RateLimitConfig) (now : Int) (l : List Int) : Int :=
  max 0 (cfg.maxRequests - (cleanupTimestamps002 cfg now l).length)

/-- `canRequest` of the other `useRateLimiter` variant: the displayed
cooldown has reached zero and at least one window slot remains. -/
def canRequest002 (cfg : RateLimitConfig) (cooldownRemaining : Int) (now : Int)
    (l : List Int) : Bool :=
  decide (cooldownRemaining = 0) && decide (0 < getRequestsRemaining002 cfg now l)

/-- The default configuration `{cooldownMs: 1000, maxRequests: 10, windowMs: 60000}`. -/
def defaultCfg : RateLimitConfig := ⟨1000, 10, 60000⟩

/-- Embedding of JavaScript `String.prototype.trim()`: drop whitespace
from both ends (structural recursion over the character list, so that
concrete runs evaluate inside the kernel). -/
def jsTrim (s : String) : String :=
  ⟨((s.data.dropWhile Char.isWhitespace).reverse.dropWhile Char.isWhitespace).reverse⟩

/-- Unified orchestrator status (`AiInputState` in `types.ts`). -/
inductive AiSt
  | idle
  | loading
  | success
  | error
  | rateLimited
  | recording
deriving DecidableEq, Repr

/-- A finalized audio payload: `new Blob(chunksRef.current)`.  Each call of
the `onstop` handler constructs a fresh object, modelled by a fresh `id`;
`chunks` is the recorded data (chunks abstracted as `Nat`). -/
structure Blob where
  id : Nat
  chunks : List Nat
deriving DecidableEq, Repr

/-- Input handed to the transport collaborator (`send` / `sendAudio`). -/
inductive Input
  | text (s : String)
  | audio (b : Blob)
deriving DecidableEq, Repr

/-- Observable outputs of a step: transport invocations and host callbacks. -/
inductive Out
  | transportCall (i : Input)
  | onSuccess (r : Nat)
  | onError (e : Nat)
deriving DecidableEq, Repr

/-- State of the audio capture engine (the `useAudioRecorder` variant with
`cancelRecording`).  `mediaActive` models `mediaRecorderRef.current` being a
recorder whose state is not `'inactive'`; `streamActive` models the held
microphone stream / audio context; `maxTimerArmed` the pending max-duration
timeout; `finalizePending` a MediaRecorder stop event already triggered by
`stop()` and still queued for delivery; `nextBlobId` supplies fresh blob
object identities. -/
structure RecState where
  isRecording : Bool
  audioBlob : Option Blob
  chunks : List Nat
  mediaActive : Bool
  streamActive : Bool
  maxTimerArmed : Bool
  finalizePending : Bool
  nextBlobId : Nat
deriving DecidableEq, Repr

/-- Recorder state before any session. -/
def recInit : RecState := ⟨false, none, [], false, false, false, false, 0⟩

/-- The recorder's internal `cleanup`: clear both timers, release the stream
and audio context, null the recorder reference, drop buffered chunks. -/
def recCleanup (r : RecState) : RecState :=
  { r with maxTimerArmed := false, streamActive := false, mediaActive := false, chunks := [] }

/-- The recorder's `stopRecording`: call `mediaRecorder.stop()` when it is
not inactive (queueing the `onstop` delivery) and set `isRecording := false`.
Timers and the stream are released later, by `cleanup` inside `onstop`. -/
def recStop (r : RecState) : RecState :=
  if r.mediaActive then
    { r with finalizePending := true, mediaActive := false, isRecording := false }
  else
    { r with isRecording := false }

/-- The recorder's `cancelRecording`: run `cleanup`, leave recording mode and
discard any published blob.  `cleanup` does not call `mediaRecorder.stop()`,
and it cannot retract an `onstop` delivery already queued by an earlier
`stop()`, so `finalizePending` is untouched. -/
def recCancel (r : RecState) : RecState :=
  { recCleanup r with isRecording := false, audioBlob := none }

/-- Successful body of the recorder's `startRecording`: reset the blob and
chunk buffer, acquire the stream, create the recorder, start it, and arm the
max-duration timeout. -/
def recStart (r : RecState) : RecState :=
  { r with audioBlob := none, chunks := [], isRecording := true, mediaActive := true,
           streamActive := true, maxTimerArmed := true }

/-- Delivery of the MediaRecorder `onstop` event: build the blob from the
buffered chunks, publish it, and run `cleanup`.  No-op unless a stop event
is actually queued. -/
def recFinalize (r : RecState) : RecState :=
  if r.finalizePending then
    { recCleanup r with
        audioBlob := some ⟨r.nextBlobId, r.chunks⟩,
        finalizePending := false,
        nextBlobId := r.nextBlobId + 1 }
  else r

/-- State owned by the orchestrator hook (the `pendingAudioSubmitRef`
variant): unified status, text, last error/result, the pending-commit flag,
the rate limiter, the recorder, and the queue of unsettled transport calls
(the suspended `await send(...)` continuations, oldest first). -/
structure OrchState where
  status : AiSt
  text : String
  error : Option Nat
  result : Option Nat
  pendingAudioSubmit : Bool
  rl : RateLimiterState
  recorder : RecState
  inflight : List Input
deriving DecidableEq, Repr

/-- Orchestrator state at mount. -/
def initState : OrchState :=
  ⟨AiSt.idle, "", none, none, false, rlInit, recInit, []⟩

/-- Dispatch phase of `submitText`: bail out on empty trimmed text or a
limiter denial; otherwise enter `loading`, clear the error, record the
request and invoke the transport with the text. -/
def submitTextFn (cfg : RateLimitConfig) (t : Int) (st : OrchState) :
    OrchState × List Out :=
  if jsTrim st.text = "" ∨ rlCanRequest cfg t st.rl = false then (st, [])
  else
    ({ st with status := AiSt.loading, error := none,
               rl := rlRecordRequest cfg t st.rl,
               inflight := st.inflight ++ [Input.text st.text] },
     [Out.transportCall (Input.text st.text)])

/-- Dispatch phase of `submitAudio`: bail out on a limiter denial; otherwise
enter `loading`, clear the error, record the request and invoke the
transport with the blob. -/
def submitAudioFn (cfg : RateLimitConfig) (t : Int) (b : Blob) (st : OrchState) :
    OrchState × List Out :=
  if rlCanRequest cfg t st.rl = false then (st, [])
  else
    ({ st with status := AiSt.loading, error := none,
               rl := rlRecordRequest cfg t st.rl,
               inflight := st.inflight ++ [Input.audio b] },
     [Out.transportCall (Input.audio b)])

/-- Settlement of a transport call: the host-supplied promise resolves
with a response or rejects with a failure. -/
inductive TResult
  | ok (v : Nat)
  | err (e : Nat)
deriving DecidableEq, Repr

/-- Continuation of `submitText` when the transport settles: publish the
result and `success` (then clear the text), or publish the failure verbatim
and `error` (text untouched). -/
def completeText (r : TResult) (st : OrchState) : OrchState × List Out :=
  match r with
  | TResult.ok v =>
      ({ st with result := some v, status := AiSt.success, text := "" }, [Out.onSuccess v])
  | TResult.err e =>
      ({ st with error := some e, status := AiSt.error }, [Out.onError e])

/-- Continuation of `submitAudio` when the transport settles (the opaque
response carries no transcription field in this model). -/
def completeAudio (r : TResult) (st : OrchState) : OrchState × List Out :=
  match r with
  | TResult.ok v =>
      ({ st with result := some v, status := AiSt.success }, [Out.onSuccess v])
  | TResult.err e =>
      ({ st with error := some e, status := AiSt.error }, [Out.onError e])

/-- Orchestrator `startRecording`: denial by the limiter returns silently;
otherwise delegate to the recorder's `startRecording` (acquisition assumed
granted; the status moves to `recording` via the sync effect). -/
def startRecFn (cfg : RateLimitConfig) (t : Int) (st : OrchState) : OrchState :=
  if rlCanRequest cfg t st.rl = false then st
  else { st with recorder := recStart st.recorder }

/-- Orchestrator `stopRecording`: mark the pending commit and delegate to
the recorder's stop. -/
def stopRecFn (st : OrchState) : OrchState :=
  { st with pendingAudioSubmit := true, recorder := recStop st.recorder }

/-- Orchestrator `cancelRecording`: delegate to the recorder's cancel and
return the status to `idle`.  The source does not clear
`pendingAudioSubmitRef` here. -/
def cancelRecFn (st : OrchState) : OrchState :=
  { st with recorder := recCancel st.recorder, status := AiSt.idle }

/-- Orchestrator `submit`: stop an active recording, otherwise submit
non-empty text, otherwise do nothing. -/
def submitFn (cfg : RateLimitConfig) (t : Int) (st : OrchState) :
    OrchState × List Out :=
  if st.recorder.isRecording then (stopRecFn st, [])
  else if jsTrim st.text = "" then (st, [])
  else submitTextFn cfg t st

/-- Orchestrator `reset`: force `idle`, clear text/result/error, reset the
limiter and the recorder.  The source leaves `pendingAudioSubmitRef` and any
outstanding transport continuations untouched. -/
def resetFn (st : OrchState) : OrchState :=
  { st with status := AiSt.idle, text := "", error := none, result := none,
            rl := rlInit,
            recorder := { recCleanup st.recorder with isRecording := false, audioBlob := none } }

/-- Externally delivered events: the public operations plus the
asynchronous completions (chunk delivery, `onstop`, the max-duration
timeout, transport settlement). -/
inductive Ev
  | setText (s : String)
  | submit
  | startRec
  | stopRec
  | cancelRec
  | chunk (d : Nat)
  | finalize
  | maxFire
  | transportDone (r : TResult)
  | resetEv
deriving DecidableEq, Repr

/-- Event handler, mirroring the corresponding source functions.  `chunk`
is the recorder's `ondataavailable` (only while the recorder is live);
`maxFire` is the max-duration timeout (the recorder-level `stopRecording`,
which does not touch the orchestrator's pending flag); `transportDone`
settles the oldest outstanding transport call. -/
def handleEv (cfg : RateLimitConfig) (t : Int) (e : Ev) (st : OrchState) :
    OrchState × List Out :=
  match e with
  | Ev.setText s => ({ st with text := s }, [])
  | Ev.submit => submitFn cfg t st
  | Ev.startRec => (startRecFn cfg t st, [])
  | Ev.stopRec => (stopRecFn st, [])
  | Ev.cancelRec => (cancelRecFn st, [])
  | Ev.chunk d =>
      if st.recorder.mediaActive then
        ({ st with recorder := { st.recorder with chunks := st.recorder.chunks ++ [d] } }, [])
      else (st, [])
  | Ev.finalize => ({ st with recorder := recFinalize st.recorder }, [])
  | Ev.maxFire =>
      if st.recorder.maxTimerArmed then
        ({ st with recorder := recStop { st.recorder with maxTimerArmed := false } }, [])
      else (st, [])
  | Ev.transportDone r =>
      match st.inflight with
      | [] => (st, [])
      | Input.text _ :: rest => completeText r { st with inflight := rest }
      | Input.audio _ :: rest => completeAudio r { st with inflight := rest }
  | Ev.resetEv => (resetFn st, [])

/-- First effect of the hook: while otherwise `idle`, a limiter denial is
displayed as `rate-limited`, and cleared back to `idle` once it lifts. -/
def effRateSync (cfg : RateLimitConfig) (t : Int) (st : OrchState) : OrchState :=
  if rlCanRequest cfg t st.rl = false ∧ st.status = AiSt.idle then
    { st with status := AiSt.rateLimited }
  else if rlCanRequest cfg t st.rl = true ∧ st.status = AiSt.rateLimited then
    { st with status := AiSt.idle }
  else st

/-- Second effect: an active recorder forces the `recording` status. -/
def effRecSync (st : OrchState) : OrchState :=
  if st.recorder.isRecording = true ∧ st.status ≠ AiSt.recording then
    { st with status := AiSt.recording }
  else st

/-- The dispatch effect: once a blob is published while the recorder is no
longer running and a commit is pending, clear the flag and submit the blob.
The flag is cleared before `submitAudio` runs. -/
def effPendingSubmit (cfg : RateLimitConfig) (t : Int) (st : OrchState) :
    OrchState × List Out :=
  match st.recorder.audioBlob with
  | some b =>
      if st.pendingAudioSubmit = true ∧ st.recorder.isRecording = false then
        submitAudioFn cfg t b { st with pendingAudioSubmit := false }
      else (st, [])
  | none => (st, [])

/-- One step: handle the event, then run the hook's effects in declaration
order (status syncs, then the pending-submit dispatch). -/
def step (cfg : RateLimitConfig) (p : Int × Ev) (st : OrchState) :
    OrchState × List Out :=
  let h := handleEv cfg p.1 p.2 st
  let st1 := effRecSync (effRateSync cfg p.1 h.1)
  let d := effPendingSubmit cfg p.1 st1
  (d.1, h.2 ++ d.2)

/-- Run a timed event trace from a state, accumulating outputs. -/
def run (cfg : RateLimitConfig) : List (Int × Ev) → OrchState → OrchState × List Out
  | [], st => (st, [])
  | p :: rest, st =>
      let s := step cfg p st
      let r := run cfg rest s.1
      (r.1, s.2 ++ r.2)

/-- The transport invocations among a list of outputs. -/
def transportCalls (l : List Out) : List Input :=
  l.filterMap fun o => match o with
    | Out.transportCall i => some i
    | _ => none

/-- The audio payloads handed to the transport among a list of outputs. -/
def audioCalls (l : List Out) : List Blob :=
  l.filterMap fun o => match o with
    | Out.transportCall (Input.audio b) => some b
    | _ => none

/-- Eleven `recordRequest` calls at instant 0 against the default
configuration (one more than `maxRequests`). -/
def elevenRecords : RateLimiterState :=
  (List.replicate 11 (0 : Int)).foldl (fun st t => rlRecordRequest defaultCfg t st) rlInit

/-- A session that is stopped at 200 but whose finalize event (at 400)
arrives while the limiter is cooling down from a text submission
interleaved at 300. -/
def c1Trace : List (Int × Ev) :=
  [(0, Ev.setText "hi"), (0, Ev.startRec), (100, Ev.chunk 1), (200, Ev.stopRec),
   (300, Ev.submit), (400, Ev.finalize)]

/-- A session that is stopped at 200, cancelled at 250, and whose queued
finalize event is delivered at 300. -/
def c2Trace : List (Int × Ev) :=
  [(0, Ev.startRec), (100, Ev.chunk 5), (200, Ev.stopRec), (250, Ev.cancelRec),
   (300, Ev.finalize)]

/-- A text submission accepted at 0 whose transport never settles, followed
by a second `submit` at 1000, exactly when the cooldown lapses. -/
def c3Trace : List (Int × Ev) :=
  [(0, Ev.setText "hi"), (0, Ev.submit), (1000, Ev.submit)]

/-- A session that reaches the max-duration ceiling at 60000 with no manual
stop; the recorder's stop event is delivered at 60100. -/
def c4Trace : List (Int × Ev) :=
  [(0, Ev.startRec), (100, Ev.chunk 7), (60000, Ev.maxFire), (60100, Ev.finalize)]

/-- A committed session (stop at 200, finalize at 300, transport success at
400) followed by a stray `stopRecording` at 2000, after the session ended. -/
def c9Trace : List (Int × Ev) :=
  [(0, Ev.startRec), (100, Ev.chunk 3), (200, Ev.stopRec), (300, Ev.finalize),
   (400, Ev.transportDone (TResult.ok 1)), (2000, Ev.stopRec)]

/-- Orchestrator state during a capture session that has buffered chunks
`cs`: fresh limiter, recorder live, status `recording`. -/
def recordingState (cs : List Nat) : OrchState :=
  { status := AiSt.recording, text := "", error := none, result := none,
    pendingAudioSubmit := false, rl := rlInit,
    recorder := ⟨true, none, cs, true, true, true, false, 0⟩, inflight := [] }

/-- The state of `recordingState cs` right after `stopRecording`: commit
pending, recorder stopped with its `onstop` delivery queued. -/
def stoppedState (cs : List Nat) : OrchState :=
  { recordingState cs with
      pendingAudioSubmit := true,
      recorder := ⟨false, none, cs, false, true, true, true, 0⟩ }

/-- A capture session from mount: start, chunk deliveries `cs`, a stop,
`k` further (redundant) stops, then the finalize delivery at `t3`. -/
def sessionTrace (t0 tc ts : Int) (cs : List Nat) (k : Nat) (t3 : Int) :
    List (Int × Ev) :=
  (t0, Ev.startRec) :: (cs.map fun d => (tc, Ev.chunk d))
    ++ (ts, Ev.stopRec) :: List.replicate k (ts, Ev.stopRec) ++ [(t3, Ev.finalize)]

/-- A state with an accepted text submission outstanding: status `loading`,
limiter cooling down until 1000, one unsettled transport call. -/
def loadingState : OrchState :=
  ⟨AiSt.loading, "hi", none, none, false, ⟨[0], 1000⟩, recInit, [Input.text "hi"]⟩

/-- A state right after `stopRecording` of a session with one buffered
chunk, whose finalize delivery is still queued, while the limiter is
cooling down until 1100 from a request recorded at 100. -/
def pendingDropState : OrchState :=
  ⟨AiSt.recording, "", none, none, true, ⟨[100], 1100⟩,
   ⟨false, none, [5], false, true, true, true, 0⟩, []⟩

/-- An idle state holding editable text `"hi"` with a fresh limiter. -/
def textReadyState : OrchState :=
  ⟨AiSt.idle, "hi", none, none, false, rlInit, recInit, []⟩

/-- The state right after the finalize delivery of a session with chunks
`cs` was dispatched at `t3` against a fresh limiter: loading, request
recorded, the finalized blob published and its transport call unsettled. -/
def committedState (cs : List Nat) (t3 : Int) : OrchState :=
  { status := AiSt.loading, text := "", error := none, result := none,
    pendingAudioSubmit := false, rl := ⟨[t3], t3 + 1000⟩,
    recorder := ⟨false, some ⟨0, cs⟩, [], false, false, false, false, 1⟩,
    inflight := [Input.audio ⟨0, cs⟩] }

/-- C5 (counterexample): the claim says `requestsRemaining()` is always
`≥ 0`, but the `types.ts` limiter returns `cleanupAndCount()` unclamped as
`requestsRemaining`, and eleven `recordRequest` calls at instant 0 under
the default configuration drive it to `-1`. -/
theorem claim5_counterexample : cleanupAndCount defaultCfg 0 elevenRecords = -1 := by
  decide

/-- C5 (amended): the clamped variant's `getRequestsRemaining` is always
`≥ 0`; after `recordRequest` at `t0`, `canRequest` at `t` holds exactly
when `cooldownMs` has elapsed since `t0` and the count is positive; a
positive count is exactly "fewer than `maxRequests` timestamps remain in
the window"; and (for a positive cooldown) `canRequest` is false at the
instant of the call itself. -/
theorem claim5_limits (cfg : RateLimitConfig) (l : List Int) (now : Int)
    (st st2 : RateLimiterState) (t0 t : Int) (hc : 0 < cfg.cooldownMs) :
    0 ≤ getRequestsRemaining002 cfg now l
    ∧ rlCanRequest cfg t (rlRecordRequest cfg t0 st)
        = (decide (t0 + cfg.cooldownMs ≤ t)
            && decide (0 < cleanupAndCount cfg t (rlRecordRequest cfg t0 st)))
    ∧ (0 < cleanupAndCount cfg t st2
        ↔ ((cleanupTimestamps cfg t st2.requestTimestamps).length : Int)
            < cfg.maxRequests)
    ∧ rlCanRequest cfg t0 (rlRecordRequest cfg t0 st) = false := by
  refine ⟨le_max_left _ _, ?_, ?_, ?_⟩
  · simp only [rlCanRequest, rlRecordRequest]
    by_cases h : t < t0 + cfg.cooldownMs
    · rw [if_pos h]
      have hd : decide (t0 + cfg.cooldownMs ≤ t) = false := by
        simp only [decide_eq_false_iff_not, not_le]; omega
      rw [hd, Bool.false_and]
    · rw [if_neg h]
      have hd : decide (t0 + cfg.cooldownMs ≤ t) = true := by
        simp only [decide_eq_true_eq]; omega
      rw [hd, Bool.true_and]
  · simp only [cleanupAndCount]
    omega
  · simp only [rlCanRequest, rlRecordRequest]
    rw [if_pos (show t0 < t0 + cfg.cooldownMs by omega)]

/-- Witness for `claim5_limits` at the default configuration. -/
theorem claim5_limits_witness :
    0 < defaultCfg.cooldownMs
    ∧ (0 ≤ getRequestsRemaining002 defaultCfg 0 []
        ∧ rlCanRequest defaultCfg 500 (rlRecordRequest defaultCfg 0 rlInit)
            = (decide ((0 : Int) + defaultCfg.cooldownMs ≤ 500)
                && decide (0 < cleanupAndCount defaultCfg 500
                    (rlRecordRequest defaultCfg 0 rlInit)))
        ∧ (0 < cleanupAndCount defaultCfg 500 rlInit
            ↔ ((cleanupTimestamps defaultCfg 500 rlInit.requestTimestamps).length : Int)
                < defaultCfg.maxRequests)
        ∧ rlCanRequest defaultCfg 0 (rlRecordRequest defaultCfg 0 rlInit) = false) :=
  ⟨by decide, claim5_limits defaultCfg [] 0 rlInit rlInit 0 500 (by decide)⟩

/-- C7 (counterexample): with `maxRequests = 0` both limiter variants deny
every request on an empty history with no cooldown pending, contradicting
the claimed degradation to "always allow". -/
theorem claim7_counterexample :
    rlCanRequest ⟨1000, 0, 60000⟩ 0 rlInit = false
    ∧ canRequest002 ⟨1000, 0, 60000⟩ 0 0 [] = false := by
  decide

/-- C7 (amended): a limiter misconfigured with `maxRequests = 0` degrades
to "always deny": `canRequest` is false for every instant and every
request history, in both variants. -/
theorem claim7_always_deny (cfg : RateLimitConfig) (now t cr : Int)
    (st : RateLimiterState) (l : List Int) (h : cfg.maxRequests = 0) :
    rlCanRequest cfg now st = false ∧ canRequest002 cfg cr t l = false := by
  constructor
  · unfold rlCanRequest
    split
    · rfl
    · simp only [decide_eq_false_iff_not, not_lt, cleanupAndCount, h]
      omega
  · unfold canRequest002 getRequestsRemaining002
    rw [h]
    have hx : ¬ (0 < max (0 : Int)
        (0 - ((cleanupTimestamps002 cfg t l).length : Int))) := by
      rw [lt_max_iff]
      push_neg
      omega
    simp [hx]

/-- Witness for `claim7_always_deny`. -/
theorem claim7_always_deny_witness :
    (⟨1000, 0, 60000⟩ : RateLimitConfig).maxRequests = 0
    ∧ (rlCanRequest ⟨1000, 0, 60000⟩ 5 ⟨[1, 2], 0⟩ = false
        ∧ canRequest002 ⟨1000, 0, 60000⟩ 0 5 [1, 2] = false) :=
  ⟨rfl, claim7_always_deny ⟨1000, 0, 60000⟩ 5 5 0 ⟨[1, 2], 0⟩ [1, 2] rfl⟩

/-- C1 (counterexample): in `c1Trace` a `stopRecording` is issued and the
finalized payload is delivered, yet no transport call carries the payload:
a text submission interleaved between stop and finalize put the limiter in
cooldown, so the dispatch effect silently dropped the blob (the only
transport call of the trace is the text one). -/
theorem claim1_counterexample :
    audioCalls (run defaultCfg c1Trace initState).2 = []
    ∧ transportCalls (run defaultCfg c1Trace initState).2 = [Input.text "hi"] := by
  decide

/-- C2 (code bug): in `c2Trace` the session is stopped, then cancelled
before the finalize delivery; the claim (and the spec) demand zero
transport calls, but because `cancelRecording` does not clear
`pendingAudioSubmitRef`, the post-cancel finalize is resurrected into a
transport call carrying the discarded (now empty) payload. -/
theorem claim2_cancel_bug :
    audioCalls (run defaultCfg c2Trace initState).2 = [⟨0, []⟩]
    ∧ (run defaultCfg c2Trace initState).1.status = AiSt.loading := by
  decide

/-- C3 (counterexample): after a text submission is accepted at instant 0
the status is `loading` with the transport unsettled; a second `submit` at
instant 1000 (cooldown elapsed, window not full) is accepted anyway,
leaving two transport calls outstanding at once. -/
theorem claim3_counterexample :
    (run defaultCfg (c3Trace.take 2) initState).1.status = AiSt.loading
    ∧ transportCalls (run defaultCfg c3Trace initState).2
        = [Input.text "hi", Input.text "hi"]
    ∧ (run defaultCfg c3Trace initState).1.inflight
        = [Input.text "hi", Input.text "hi"] := by
  decide

/-- C4 (code bug): in `c4Trace` the session reaches `maxDurationMs` with no
manual stop.  The recorder auto-stops (capture is no longer active), but
the timeout calls the recorder-level stop directly, never setting the
orchestrator's pending-commit flag, so the finalize delivery produces no
submission and the status never passes through `loading` — it remains
`recording`. -/
theorem claim4_maxduration_bug :
    transportCalls (run defaultCfg c4Trace initState).2 = []
    ∧ (run defaultCfg c4Trace initState).1.status = AiSt.recording
    ∧ (run defaultCfg c4Trace initState).1.recorder.isRecording = false
    ∧ (run defaultCfg c4Trace initState).1.pendingAudioSubmit = false := by
  decide

/-- C9 (counterexample): in `c9Trace` a session is committed (stop,
finalize, transport success), then a stray `stopRecording` arrives at
instant 2000, after the session has ended.  It re-arms the pending flag
while the stale blob is still published, so the dispatch effect submits
the same payload a second time — two audio transport calls result. -/
theorem claim9_counterexample :
    audioCalls (run defaultCfg c9Trace initState).2 = [⟨0, [3]⟩, ⟨0, [3]⟩] := by
  decide

lemma audioCalls_append (a b : List Out) :
    audioCalls (a ++ b) = audioCalls a ++ audioCalls b := by
  simp [audioCalls, List.filterMap_append]

lemma transportCalls_append (a b : List Out) :
    transportCalls (a ++ b) = transportCalls a ++ transportCalls b := by
  simp [transportCalls, List.filterMap_append]

lemma effRateSync_pending (cfg : RateLimitConfig) (t : Int) (st : OrchState) :
    (effRateSync cfg t st).pendingAudioSubmit = st.pendingAudioSubmit := by
  unfold effRateSync
  split
  · rfl
  · split
    · rfl
    · rfl

lemma effRecSync_pending (st : OrchState) :
    (effRecSync st).pendingAudioSubmit = st.pendingAudioSubmit := by
  unfold effRecSync
  split
  · rfl
  · rfl

lemma effRateSync_not_idle (cfg : RateLimitConfig) (t : Int) (st : OrchState)
    (h1 : st.status ≠ AiSt.idle) (h2 : st.status ≠ AiSt.rateLimited) :
    effRateSync cfg t st = st := by
  unfold effRateSync
  rw [if_neg (by simp [h1]), if_neg (by simp [h2])]

lemma effRateSync_idle_can (cfg : RateLimitConfig) (t : Int) (st : OrchState)
    (hs : st.status = AiSt.idle) (hc : rlCanRequest cfg t st.rl = true) :
    effRateSync cfg t st = st := by
  unfold effRateSync
  rw [if_neg (by simp [hc]), if_neg (by simp [hs])]

lemma effRecSync_not (st : OrchState) (h : st.recorder.isRecording = false) :
    effRecSync st = st := by
  unfold effRecSync
  rw [if_neg (by simp [h])]

lemma effPendingSubmit_of_false (cfg : RateLimitConfig) (t : Int) (st : OrchState)
    (h : st.pendingAudioSubmit = false) :
    effPendingSubmit cfg t st = (st, []) := by
  unfold effPendingSubmit
  cases hb : st.recorder.audioBlob with
  | none => rfl
  | some b => simp [h]

lemma effPendingSubmit_none (cfg : RateLimitConfig) (t : Int) (st : OrchState)
    (h : st.recorder.audioBlob = none) :
    effPendingSubmit cfg t st = (st, []) := by
  unfold effPendingSubmit
  rw [h]

lemma step_eval (cfg : RateLimitConfig) (t : Int) (e : Ev) (st s1 s1' s2 : OrchState)
    (o o2 : List Out)
    (hh : handleEv cfg t e st = (s1, o))
    (h2 : effRecSync (effRateSync cfg t s1) = s1')
    (h3 : effPendingSubmit cfg t s1' = (s2, o2)) :
    step cfg (t, e) st = (s2, o ++ o2) := by
  simp only [step, hh, h2, h3]

lemma handleEv_no_pending (cfg : RateLimitConfig) (t : Int) (e : Ev) (st : OrchState)
    (h1 : e ≠ Ev.stopRec) (h2 : e ≠ Ev.submit) :
    (handleEv cfg t e st).1.pendingAudioSubmit = st.pendingAudioSubmit
      ∧ audioCalls (handleEv cfg t e st).2 = [] := by
  cases e with
  | submit => exact absurd rfl h2
  | stopRec => exact absurd rfl h1
  | setText s => exact ⟨rfl, rfl⟩
  | startRec =>
      refine ⟨?_, rfl⟩
      simp only [handleEv, startRecFn]
      split
      · rfl
      · rfl
  | cancelRec => exact ⟨rfl, rfl⟩
  | chunk d =>
      simp only [handleEv]
      split
      · exact ⟨rfl, rfl⟩
      · exact ⟨rfl, rfl⟩
  | finalize => exact ⟨rfl, rfl⟩
  | maxFire =>
      simp only [handleEv]
      split
      · exact ⟨rfl, rfl⟩
      · exact ⟨rfl, rfl⟩
  | transportDone r =>
      simp only [handleEv]
      cases hi : st.inflight with
      | nil => exact ⟨rfl, rfl⟩
      | cons i rest =>
          cases i with
          | text s => cases r <;> exact ⟨rfl, rfl⟩
          | audio b => cases r <;> exact ⟨rfl, rfl⟩
  | resetEv => exact ⟨rfl, rfl⟩

lemma step_pending_false (cfg : RateLimitConfig) (p : Int × Ev) (st : OrchState)
    (hp : st.pendingAudioSubmit = false)
    (h1 : p.2 ≠ Ev.stopRec) (h2 : p.2 ≠ Ev.submit) :
    (step cfg p st).1.pendingAudioSubmit = false
      ∧ audioCalls (step cfg p st).2 = [] := by
  obtain ⟨t, e⟩ := p
  obtain ⟨hpe, hao⟩ := handleEv_no_pending cfg t e st h1 h2
  have hp2 : (effRecSync (effRateSync cfg t (handleEv cfg t e st).1)).pendingAudioSubmit
      = false := by
    rw [effRecSync_pending, effRateSync_pending, hpe, hp]
  have hps := effPendingSubmit_of_false cfg t _ hp2
  constructor
  · simp only [step, hps]
    exact hp2
  · simp only [step, hps]
    rw [audioCalls_append, hao]
    rfl

lemma run_pending_false (cfg : RateLimitConfig) (evs : List (Int × Ev)) (st : OrchState)
    (hp : st.pendingAudioSubmit = false)
    (h : ∀ p ∈ evs, p.2 ≠ Ev.stopRec ∧ p.2 ≠ Ev.submit) :
    (run cfg evs st).1.pendingAudioSubmit = false
      ∧ audioCalls (run cfg evs st).2 = [] := by
  induction evs generalizing st with
  | nil => exact ⟨hp, rfl⟩
  | cons p rest ih =>
      obtain ⟨h1, h2⟩ := h p (List.mem_cons_self _ _)
      obtain ⟨s1, a1⟩ := step_pending_false cfg p st hp h1 h2
      obtain ⟨s2, a2⟩ := ih (step cfg p st).1 s1 fun q hq => h q (List.mem_cons_of_mem _ hq)
      refine ⟨s2, ?_⟩
      simp only [run]
      rw [audioCalls_append, a1, a2]
      rfl

lemma recFinalize_isRecording (r : RecState) :
    (recFinalize r).isRecording = r.isRecording := by
  unfold recFinalize recCleanup
  split
  · rfl
  · rfl

lemma recFinalize_audioBlob_of (r : RecState) (h : r.finalizePending = true) :
    (recFinalize r).audioBlob = some ⟨r.nextBlobId, r.chunks⟩ := by
  unfold recFinalize
  rw [if_pos h]

lemma recStop_noop (r : RecState) (hm : r.mediaActive = false)
    (hi : r.isRecording = false) : recStop r = r := by
  obtain ⟨i, a, c, m, s, mt, fp, n⟩ := r
  simp_all [recStop]

lemma recCancel_idem (r : RecState) : recCancel (recCancel r) = recCancel r := rfl

/-- C10: when the limiter denies at the instant the finalized blob is
dispatched, `submitAudio` returns early with no transport call, no error
and no state change; at the `finalize` step the pending flag is cleared
before that check, so the state ends with the flag down and the blob
merely published; and from a flag-down state, no trace free of further
`stopRecording`/`submit` calls ever produces an audio transport call —
the captured audio is dropped. -/
theorem claim10_rate_limited_drop (cfg : RateLimitConfig) (t : Int) (b : Blob)
    (st st2 : OrchState) (evs : List (Int × Ev)) :
    (rlCanRequest cfg t st.rl = false → submitAudioFn cfg t b st = (st, []))
    ∧ (st.pendingAudioSubmit = true → st.recorder.finalizePending = true →
        st.recorder.isRecording = false → st.status = AiSt.recording →
        rlCanRequest cfg t st.rl = false →
        step cfg (t, Ev.finalize) st
          = ({ st with
                pendingAudioSubmit := false,
                recorder := recFinalize st.recorder }, []))
    ∧ (st2.pendingAudioSubmit = false →
        (∀ p ∈ evs, p.2 ≠ Ev.stopRec ∧ p.2 ≠ Ev.submit) →
        audioCalls (run cfg evs st2).2 = []) := by
  refine ⟨?_, ?_, ?_⟩
  · intro hcan
    unfold submitAudioFn
    rw [if_pos hcan]
  · intro hp hf hr hs hcan
    have hh : handleEv cfg t Ev.finalize st
        = ({ st with recorder := recFinalize st.recorder }, []) := rfl
    have hsync : effRecSync (effRateSync cfg t { st with recorder := recFinalize st.recorder })
        = { st with recorder := recFinalize st.recorder } := by
      rw [effRateSync_not_idle _ _ _ (by simp [hs]) (by simp [hs]),
          effRecSync_not _ (by simp [recFinalize_isRecording, hr])]
    have h3 : effPendingSubmit cfg t { st with recorder := recFinalize st.recorder }
        = ({ st with
              pendingAudioSubmit := false,
              recorder := recFinalize st.recorder }, []) := by
      unfold effPendingSubmit
      simp only [recFinalize_audioBlob_of st.recorder hf]
      rw [if_pos ⟨hp, by simp [recFinalize_isRecording, hr]⟩]
      unfold submitAudioFn
      rw [if_pos hcan]
    have := step_eval cfg t Ev.finalize st _ _ _ _ _ hh hsync h3
    simpa using this
  · intro hp2 hlist
    exact (run_pending_false cfg evs st2 hp2 hlist).2

/-- Witness for `claim10_rate_limited_drop` at `pendingDropState` (limiter
cooling down until 1100, finalize processed at 200). -/
theorem claim10_rate_limited_drop_witness :
    submitAudioFn defaultCfg 200 ⟨0, [5]⟩ pendingDropState = (pendingDropState, [])
    ∧ step defaultCfg (200, Ev.finalize) pendingDropState
        = ({ pendingDropState with
              pendingAudioSubmit := false,
              recorder := recFinalize pendingDropState.recorder }, [])
    ∧ audioCalls (run defaultCfg [(300, Ev.setText "x")] initState).2 = [] :=
  ⟨(claim10_rate_limited_drop defaultCfg 200 ⟨0, [5]⟩ pendingDropState initState
      [(300, Ev.setText "x")]).1 (by decide),
   (claim10_rate_limited_drop defaultCfg 200 ⟨0, [5]⟩ pendingDropState initState
      [(300, Ev.setText "x")]).2.1 rfl rfl rfl rfl (by decide),
   (claim10_rate_limited_drop defaultCfg 200 ⟨0, [5]⟩ pendingDropState initState
      [(300, Ev.setText "x")]).2.2 rfl (by decide)⟩

/-- C3 (amended): a `submit` or `startRecording` while the status is
`loading` is ignored exactly when the limiter denies it — in particular
(third conjunct) at any instant before the cooldown set by the accepted
submission has elapsed.  Once the cooldown lapses with window room, the
guard passes even though the transport is still outstanding (see the
counterexample). -/
theorem claim3_ignored_while_denied (cfg : RateLimitConfig) (t u : Int)
    (st : OrchState)
    (hst : st.status = AiSt.loading) (hrec : st.recorder.isRecording = false)
    (hp : st.pendingAudioSubmit = false)
    (hcan : rlCanRequest cfg t st.rl = false) :
    step cfg (t, Ev.submit) st = (st, [])
    ∧ step cfg (t, Ev.startRec) st = (st, [])
    ∧ (u < st.rl.cooldownEnd → rlCanRequest cfg u st.rl = false) := by
  have hsync : effRecSync (effRateSync cfg t st) = st := by
    rw [effRateSync_not_idle cfg t st (by simp [hst]) (by simp [hst]),
        effRecSync_not st hrec]
  have h3 := effPendingSubmit_of_false cfg t st hp
  refine ⟨?_, ?_, ?_⟩
  · have hh : handleEv cfg t Ev.submit st = (st, []) := by
      simp only [handleEv, submitFn]
      rw [if_neg (by simp [hrec])]
      by_cases he : jsTrim st.text = ""
      · rw [if_pos he]
      · rw [if_neg he]
        unfold submitTextFn
        rw [if_pos (Or.inr hcan)]
    have := step_eval cfg t Ev.submit st st st st [] [] hh hsync h3
    simpa using this
  · have hh : handleEv cfg t Ev.startRec st = (st, []) := by
      simp only [handleEv, startRecFn]
      rw [if_pos hcan]
    have := step_eval cfg t Ev.startRec st st st st [] [] hh hsync h3
    simpa using this
  · intro hu
    unfold rlCanRequest
    rw [if_pos hu]

/-- Witness for `claim3_ignored_while_denied` at `loadingState`, instant
500 (inside the cooldown that runs until 1000). -/
theorem claim3_ignored_while_denied_witness :
    step defaultCfg (500, Ev.submit) loadingState = (loadingState, [])
    ∧ step defaultCfg (500, Ev.startRec) loadingState = (loadingState, [])
    ∧ rlCanRequest defaultCfg 500 loadingState.rl = false :=
  ⟨(claim3_ignored_while_denied defaultCfg 500 500 loadingState rfl rfl rfl
      (by decide)).1,
   (claim3_ignored_while_denied defaultCfg 500 500 loadingState rfl rfl rfl
      (by decide)).2.1,
   (claim3_ignored_while_denied defaultCfg 500 500 loadingState rfl rfl rfl
      (by decide)).2.2 (by decide)⟩

/-- C8: `submit` is the context-sensitive dispatch the claim describes:
while recording it is the same step as `stopRecording`; otherwise with
non-empty trimmed text it is exactly `submitText`; otherwise the handler
returns the state unchanged with no output, and (from an idle state with
the limiter willing and no pending commit) the whole step — effects
included — changes nothing. -/
theorem claim8_submit_dispatch (cfg : RateLimitConfig) (t : Int) (st : OrchState) :
    (st.recorder.isRecording = true →
        step cfg (t, Ev.submit) st = step cfg (t, Ev.stopRec) st)
    ∧ (st.recorder.isRecording = false → jsTrim st.text ≠ "" →
        handleEv cfg t Ev.submit st = submitTextFn cfg t st)
    ∧ (st.recorder.isRecording = false → jsTrim st.text = "" →
        handleEv cfg t Ev.submit st = (st, []))
    ∧ (st.recorder.isRecording = false → jsTrim st.text = "" →
        st.status = AiSt.idle → rlCanRequest cfg t st.rl = true →
        st.pendingAudioSubmit = false →
        step cfg (t, Ev.submit) st = (st, [])) := by
  refine ⟨?_, ?_, ?_, ?_⟩
  · intro h
    have hh : handleEv cfg t Ev.submit st = handleEv cfg t Ev.stopRec st := by
      simp [handleEv, submitFn, h]
    simp only [step, hh]
  · intro h ht
    simp only [handleEv, submitFn]
    rw [if_neg (by simp [h]), if_neg ht]
  · intro h ht
    simp only [handleEv, submitFn]
    rw [if_neg (by simp [h]), if_pos ht]
  · intro h ht hs hcan hp
    have hh : handleEv cfg t Ev.submit st = (st, []) := by
      simp only [handleEv, submitFn]
      rw [if_neg (by simp [h]), if_pos ht]
    have hsync : effRecSync (effRateSync cfg t st) = st := by
      rw [effRateSync_idle_can cfg t st hs hcan, effRecSync_not st h]
    have hps := effPendingSubmit_of_false cfg t st hp
    have := step_eval cfg t Ev.submit st st st st [] [] hh hsync hps
    simpa using this

/-- Witness for `claim8_submit_dispatch`: the recording branch at
`recordingState []`, the text branch at `textReadyState`, and the no-op
branch (handler and full step) at `initState`. -/
theorem claim8_submit_dispatch_witness :
    step defaultCfg (0, Ev.submit) (recordingState [])
      = step defaultCfg (0, Ev.stopRec) (recordingState [])
    ∧ handleEv defaultCfg 0 Ev.submit textReadyState
      = submitTextFn defaultCfg 0 textReadyState
    ∧ handleEv defaultCfg 0 Ev.submit initState = (initState, [])
    ∧ step defaultCfg (0, Ev.submit) initState = (initState, []) :=
  ⟨(claim8_submit_dispatch defaultCfg 0 (recordingState [])).1 rfl,
   (claim8_submit_dispatch defaultCfg 0 textReadyState).2.1 rfl (by decide),
   (claim8_submit_dispatch defaultCfg 0 initState).2.2.1 rfl rfl,
   (claim8_submit_dispatch defaultCfg 0 initState).2.2.2 rfl rfl rfl (by decide) rfl⟩

/-- C6: an accepted `submitText` (non-empty trimmed text, limiter willing)
records the request, enters `loading`, clears the error and invokes the
transport with the text; on settlement the success continuation publishes
the result, reaches `success`, fires the success callback and clears the
text, while the failure continuation publishes the failure verbatim,
reaches `error`, fires the error callback and preserves text and result
unchanged. -/
theorem claim6_submitText_contract (cfg : RateLimitConfig) (t : Int)
    (st s1 : OrchState) (v e : Nat)
    (ht : jsTrim st.text ≠ "") (hcan : rlCanRequest cfg t st.rl = true) :
    submitTextFn cfg t st
      = ({ st with
            status := AiSt.loading, error := none,
            rl := rlRecordRequest cfg t st.rl,
            inflight := st.inflight ++ [Input.text st.text] },
         [Out.transportCall (Input.text st.text)])
    ∧ ((completeText (TResult.ok v) s1).1.status = AiSt.success
        ∧ (completeText (TResult.ok v) s1).1.result = some v
        ∧ (completeText (TResult.ok v) s1).1.text = ""
        ∧ (completeText (TResult.ok v) s1).2 = [Out.onSuccess v])
    ∧ ((completeText (TResult.err e) s1).1.status = AiSt.error
        ∧ (completeText (TResult.err e) s1).1.error = some e
        ∧ (completeText (TResult.err e) s1).1.text = s1.text
        ∧ (completeText (TResult.err e) s1).1.result = s1.result
        ∧ (completeText (TResult.err e) s1).2 = [Out.onError e]) := by
  refine ⟨?_, ⟨rfl, rfl, rfl, rfl⟩, ⟨rfl, rfl, rfl, rfl, rfl⟩⟩
  unfold submitTextFn
  rw [if_neg]
  rintro (hx | hx)
  · exact ht hx
  · rw [hcan] at hx
    cases hx

/-- Witness for `claim6_submitText_contract` at `textReadyState` (text
`"hi"`, fresh limiter), with completion states read off `loadingState`. -/
theorem claim6_submitText_contract_witness :
    submitTextFn defaultCfg 0 textReadyState
      = ({ textReadyState with
            status := AiSt.loading, error := none,
            rl := rlRecordRequest defaultCfg 0 textReadyState.rl,
            inflight := textReadyState.inflight ++ [Input.text textReadyState.text] },
         [Out.transportCall (Input.text textReadyState.text)])
    ∧ ((completeText (TResult.ok 42) loadingState).1.status = AiSt.success
        ∧ (completeText (TResult.ok 42) loadingState).1.result = some 42
        ∧ (completeText (TResult.ok 42) loadingState).1.text = ""
        ∧ (completeText (TResult.ok 42) loadingState).2 = [Out.onSuccess 42])
    ∧ ((completeText (TResult.err 7) loadingState).1.status = AiSt.error
        ∧ (completeText (TResult.err 7) loadingState).1.error = some 7
        ∧ (completeText (TResult.err 7) loadingState).1.text = loadingState.text
        ∧ (completeText (TResult.err 7) loadingState).1.result = loadingState.result
        ∧ (completeText (TResult.err 7) loadingState).2 = [Out.onError 7]) :=
  claim6_submitText_contract defaultCfg 0 textReadyState loadingState 42 7
    (by decide) (by decide)

/-- C9 (amended): the idempotence instances the spec states do hold —
cancelling twice is a no-op (no output, no state change), a stop after a
cancel emits nothing, keeps status and error, and only re-arms the
pending-commit flag, and at the recorder level stop and cancel after the
session has ended are no-ops.  (The claim's generalisation to every
termination call after session end fails: a stop after a committed session
re-submits the stale blob — see the counterexample.) -/
theorem claim9_idempotence (cfg : RateLimitConfig) (t1 t2 t3 : Int)
    (st : OrchState) (r : RecState)
    (h1 : rlCanRequest cfg t1 st.rl = true)
    (h2 : rlCanRequest cfg t2 st.rl = true)
    (h3 : rlCanRequest cfg t3 st.rl = true) :
    step cfg (t2, Ev.cancelRec) (step cfg (t1, Ev.cancelRec) st).1
      = ((step cfg (t1, Ev.cancelRec) st).1, [])
    ∧ step cfg (t3, Ev.stopRec) (step cfg (t1, Ev.cancelRec) st).1
      = ({ (step cfg (t1, Ev.cancelRec) st).1 with pendingAudioSubmit := true }, [])
    ∧ (r.mediaActive = false → r.isRecording = false → recStop r = r)
    ∧ recCancel (recCancel r) = recCancel r := by
  have hfirst : step cfg (t1, Ev.cancelRec) st = (cancelRecFn st, []) := by
    have hh : handleEv cfg t1 Ev.cancelRec st = (cancelRecFn st, []) := rfl
    have hsync : effRecSync (effRateSync cfg t1 (cancelRecFn st)) = cancelRecFn st := by
      rw [effRateSync_idle_can cfg t1 (cancelRecFn st) rfl h1,
          effRecSync_not (cancelRecFn st) rfl]
    have hps := effPendingSubmit_none cfg t1 (cancelRecFn st) rfl
    have := step_eval cfg t1 Ev.cancelRec st _ _ _ _ _ hh hsync hps
    simpa using this
  rw [hfirst]
  have hSidem : cancelRecFn (cancelRecFn st) = cancelRecFn st := by
    show ({ cancelRecFn st with
             recorder := recCancel (cancelRecFn st).recorder,
             status := AiSt.idle } : OrchState) = cancelRecFn st
    rw [show (cancelRecFn st).recorder = recCancel st.recorder from rfl,
        recCancel_idem]
    rfl
  refine ⟨?_, ?_, recStop_noop r, recCancel_idem r⟩
  · have hh : handleEv cfg t2 Ev.cancelRec (cancelRecFn st)
        = (cancelRecFn st, []) := by
      show (cancelRecFn (cancelRecFn st), ([] : List Out)) = (cancelRecFn st, [])
      rw [hSidem]
    have hsync : effRecSync (effRateSync cfg t2 (cancelRecFn st)) = cancelRecFn st := by
      rw [effRateSync_idle_can cfg t2 (cancelRecFn st) rfl h2,
          effRecSync_not (cancelRecFn st) rfl]
    have hps := effPendingSubmit_none cfg t2 (cancelRecFn st) rfl
    have := step_eval cfg t2 Ev.cancelRec (cancelRecFn st) _ _ _ _ _ hh hsync hps
    simpa using this
  · have hstop : stopRecFn (cancelRecFn st)
        = { cancelRecFn st with pendingAudioSubmit := true } := by
      show ({ cancelRecFn st with
               pendingAudioSubmit := true,
               recorder := recStop (cancelRecFn st).recorder } : OrchState)
          = { cancelRecFn st with pendingAudioSubmit := true }
      rw [recStop_noop (cancelRecFn st).recorder rfl rfl]
    have hh : handleEv cfg t3 Ev.stopRec (cancelRecFn st)
        = ({ cancelRecFn st with pendingAudioSubmit := true }, []) := by
      show (stopRecFn (cancelRecFn st), ([] : List Out))
          = ({ cancelRecFn st with pendingAudioSubmit := true }, [])
      rw [hstop]
    have hsync : effRecSync (effRateSync cfg t3
          { cancelRecFn st with pendingAudioSubmit := true })
        = { cancelRecFn st with pendingAudioSubmit := true } := by
      rw [effRateSync_idle_can cfg t3 ({ cancelRecFn st with pendingAudioSubmit := true })
            rfl h3,
          effRecSync_not ({ cancelRecFn st with pendingAudioSubmit := true }) rfl]
    have hps := effPendingSubmit_none cfg t3
      ({ cancelRecFn st with pendingAudioSubmit := true }) rfl
    have := step_eval cfg t3 Ev.stopRec (cancelRecFn st) _ _ _ _ _ hh hsync hps
    simpa using this

/-- Witness for `claim9_idempotence` at `initState` (fresh limiter grants
at every instant used) and `recInit`. -/
theorem claim9_idempotence_witness :
    step defaultCfg (0, Ev.cancelRec) (step defaultCfg (0, Ev.cancelRec) initState).1
      = ((step defaultCfg (0, Ev.cancelRec) initState).1, [])
    ∧ step defaultCfg (0, Ev.stopRec) (step defaultCfg (0, Ev.cancelRec) initState).1
      = ({ (step defaultCfg (0, Ev.cancelRec) initState).1 with
            pendingAudioSubmit := true }, [])
    ∧ recStop recInit = recInit
    ∧ recCancel (recCancel recInit) = recCancel recInit :=
  ⟨(claim9_idempotence defaultCfg 0 0 0 initState recInit (by decide) (by decide)
      (by decide)).1,
   (claim9_idempotence defaultCfg 0 0 0 initState recInit (by decide) (by decide)
      (by decide)).2.1,
   (claim9_idempotence defaultCfg 0 0 0 initState recInit (by decide) (by decide)
      (by decide)).2.2.1 rfl rfl,
   (claim9_idempotence defaultCfg 0 0 0 initState recInit (by decide) (by decide)
      (by decide)).2.2.2⟩

lemma effRecSync_already (st : OrchState) (h : st.status = AiSt.recording) :
    effRecSync st = st := by
  unfold effRecSync
  rw [if_neg (by simp [h])]

lemma run_cons (cfg : RateLimitConfig) (p : Int × Ev) (l : List (Int × Ev))
    (st : OrchState) :
    run cfg (p :: l) st
      = ((run cfg l (step cfg p st).1).1,
         (step cfg p st).2 ++ (run cfg l (step cfg p st).1).2) := rfl

lemma run_append (cfg : RateLimitConfig) (xs ys : List (Int × Ev)) (st : OrchState) :
    run cfg (xs ++ ys) st
      = ((run cfg ys (run cfg xs st).1).1,
         (run cfg xs st).2 ++ (run cfg ys (run cfg xs st).1).2) := by
  induction xs generalizing st with
  | nil => simp [run]
  | cons p rest ih =>
      simp only [List.cons_append, run_cons, ih, List.append_assoc]

lemma step_start (t0 : Int) (h : rlCanRequest defaultCfg t0 rlInit = true) :
    step defaultCfg (t0, Ev.startRec) initState = (recordingState [], []) := by
  have h' : rlCanRequest defaultCfg t0 initState.rl = true := h
  have hh : handleEv defaultCfg t0 Ev.startRec initState
      = ({ initState with recorder := recStart initState.recorder }, []) := by
    simp only [handleEv, startRecFn]
    rw [if_neg (by simp [h'])]
  have hsync : effRecSync (effRateSync defaultCfg t0
        ({ initState with recorder := recStart initState.recorder }))
      = recordingState [] := by
    rw [effRateSync_idle_can defaultCfg t0
          ({ initState with recorder := recStart initState.recorder }) rfl h']
    rfl
  have hps : effPendingSubmit defaultCfg t0 (recordingState [])
      = (recordingState [], []) := effPendingSubmit_none _ _ _ rfl
  have := step_eval defaultCfg t0 Ev.startRec initState _ _ _ _ _ hh hsync hps
  simpa using this

lemma step_chunk (t : Int) (d : Nat) (cs : List Nat) :
    step defaultCfg (t, Ev.chunk d) (recordingState cs)
      = (recordingState (cs ++ [d]), []) := by
  have hh : handleEv defaultCfg t (Ev.chunk d) (recordingState cs)
      = (recordingState (cs ++ [d]), []) := rfl
  have hsync : effRecSync (effRateSync defaultCfg t (recordingState (cs ++ [d])))
      = recordingState (cs ++ [d]) := by
    rw [effRateSync_not_idle defaultCfg t _ (by simp [recordingState])
          (by simp [recordingState]),
        effRecSync_already _ rfl]
  have hps : effPendingSubmit defaultCfg t (recordingState (cs ++ [d]))
      = (recordingState (cs ++ [d]), []) := effPendingSubmit_none _ _ _ rfl
  have := step_eval defaultCfg t (Ev.chunk d) (recordingState cs) _ _ _ _ _ hh hsync hps
  simpa using this

lemma run_chunks (tc : Int) (cs acc : List Nat) :
    run defaultCfg (cs.map fun d => (tc, Ev.chunk d)) (recordingState acc)
      = (recordingState (acc ++ cs), []) := by
  induction cs generalizing acc with
  | nil => simp [run]
  | cons d rest ih =>
      simp only [List.map_cons, run_cons, step_chunk, ih, List.append_assoc,
        List.singleton_append, List.append_nil, List.nil_append]

lemma step_stop (t : Int) (cs : List Nat) :
    step defaultCfg (t, Ev.stopRec) (recordingState cs) = (stoppedState cs, []) := by
  have hh : handleEv defaultCfg t Ev.stopRec (recordingState cs)
      = (stoppedState cs, []) := rfl
  have hsync : effRecSync (effRateSync defaultCfg t (stoppedState cs))
      = stoppedState cs := by
    rw [effRateSync_not_idle defaultCfg t _ (by simp [stoppedState, recordingState])
          (by simp [stoppedState, recordingState]),
        effRecSync_not _ rfl]
  have hps : effPendingSubmit defaultCfg t (stoppedState cs)
      = (stoppedState cs, []) := effPendingSubmit_none _ _ _ rfl
  have := step_eval defaultCfg t Ev.stopRec (recordingState cs) _ _ _ _ _ hh hsync hps
  simpa using this

lemma step_stop_stopped (t : Int) (cs : List Nat) :
    step defaultCfg (t, Ev.stopRec) (stoppedState cs) = (stoppedState cs, []) := by
  have hh : handleEv defaultCfg t Ev.stopRec (stoppedState cs)
      = (stoppedState cs, []) := rfl
  have hsync : effRecSync (effRateSync defaultCfg t (stoppedState cs))
      = stoppedState cs := by
    rw [effRateSync_not_idle defaultCfg t _ (by simp [stoppedState, recordingState])
          (by simp [stoppedState, recordingState]),
        effRecSync_not _ rfl]
  have hps : effPendingSubmit defaultCfg t (stoppedState cs)
      = (stoppedState cs, []) := effPendingSubmit_none _ _ _ rfl
  have := step_eval defaultCfg t Ev.stopRec (stoppedState cs) _ _ _ _ _ hh hsync hps
  simpa using this

lemma run_stops (ts : Int) (k : Nat) (cs : List Nat) :
    run defaultCfg (List.replicate k (ts, Ev.stopRec)) (stoppedState cs)
      = (stoppedState cs, []) := by
  induction k with
  | zero => simp [run]
  | succ n ih =>
      simp only [List.replicate_succ, run_cons, step_stop_stopped, ih,
        List.append_nil]

lemma effPendingSubmit_fires (cfg : RateLimitConfig) (t : Int) (st : OrchState)
    (b : Blob) (hb : st.recorder.audioBlob = some b)
    (hp : st.pendingAudioSubmit = true) (hr : st.recorder.isRecording = false) :
    effPendingSubmit cfg t st
      = submitAudioFn cfg t b { st with pendingAudioSubmit := false } := by
  unfold effPendingSubmit
  simp only [hb]
  rw [if_pos ⟨hp, hr⟩]

lemma step_finalize_stopped (t3 : Int) (cs : List Nat)
    (h : rlCanRequest defaultCfg t3 rlInit = true) :
    step defaultCfg (t3, Ev.finalize) (stoppedState cs)
      = (committedState cs t3, [Out.transportCall (Input.audio ⟨0, cs⟩)]) := by
  have hh : handleEv defaultCfg t3 Ev.finalize (stoppedState cs)
      = ({ stoppedState cs with
            recorder := ⟨false, some ⟨0, cs⟩, [], false, false, false, false, 1⟩ },
         []) := rfl
  have hsync : effRecSync (effRateSync defaultCfg t3
        ({ stoppedState cs with
            recorder := ⟨false, some ⟨0, cs⟩, [], false, false, false, false, 1⟩ }))
      = { stoppedState cs with
            recorder := ⟨false, some ⟨0, cs⟩, [], false, false, false, false, 1⟩ } := by
    rw [effRateSync_not_idle defaultCfg t3 _ (by simp [stoppedState, recordingState])
          (by simp [stoppedState, recordingState]),
        effRecSync_not _ rfl]
  have h3 : effPendingSubmit defaultCfg t3
        ({ stoppedState cs with
            recorder := ⟨false, some ⟨0, cs⟩, [], false, false, false, false, 1⟩ })
      = (committedState cs t3, [Out.transportCall (Input.audio ⟨0, cs⟩)]) := by
    rw [effPendingSubmit_fires defaultCfg t3 _ ⟨0, cs⟩ rfl rfl rfl]
    unfold submitAudioFn
    have hrl : ({ { stoppedState cs with
            recorder := ⟨false, some ⟨0, cs⟩, [], false, false, false, false, 1⟩ } with
          pendingAudioSubmit := false } : OrchState).rl = rlInit := rfl
    rw [if_neg (by rw [hrl, h]; simp)]
    rfl
  have := step_eval defaultCfg t3 Ev.finalize (stoppedState cs) _ _ _ _ _ hh hsync h3
  simpa using this

/-- C1 (amended): for a capture session started against a fresh limiter —
start, any chunk deliveries, a stop, any number of redundant further stops,
then the finalize delivery — *provided the limiter grants the request when
the finalize event is processed* (here: fresh limiter, granting at `t0` and
`t3`), exactly one transport call results and its input is the finalized
payload built from the session's chunks; the pending flag ends cleared,
the extra stops add nothing.  Without the limiter proviso the claim fails
(see the counterexample), and a stop issued *after* the dispatch can
re-arm the flag (see the C9 counterexample). -/
theorem claim1_one_dispatch (t0 tc ts t3 : Int) (cs : List Nat) (k : Nat)
    (h0 : rlCanRequest defaultCfg t0 rlInit = true)
    (h3 : rlCanRequest defaultCfg t3 rlInit = true) :
    transportCalls (run defaultCfg (sessionTrace t0 tc ts cs k t3) initState).2
      = [Input.audio ⟨0, cs⟩]
    ∧ (run defaultCfg (sessionTrace t0 tc ts cs k t3) initState).1.pendingAudioSubmit
      = false := by
  have e1 : run defaultCfg ((t0, Ev.startRec) :: List.map (fun d => (tc, Ev.chunk d)) cs)
        initState = (recordingState cs, []) := by
    rw [run_cons, step_start t0 h0]
    dsimp only
    rw [run_chunks]
    simp
  have e2 : run defaultCfg ((ts, Ev.stopRec) :: List.replicate k (ts, Ev.stopRec))
        (recordingState cs) = (stoppedState cs, []) := by
    rw [run_cons, step_stop]
    dsimp only
    rw [run_stops]
    simp
  have e3 : run defaultCfg [(t3, Ev.finalize)] (stoppedState cs)
      = (committedState cs t3, [Out.transportCall (Input.audio ⟨0, cs⟩)]) := by
    rw [run_cons, step_finalize_stopped t3 cs h3]
    simp [run]
  have hrun : run defaultCfg (sessionTrace t0 tc ts cs k t3) initState
      = (committedState cs t3, [Out.transportCall (Input.audio ⟨0, cs⟩)]) := by
    unfold sessionTrace
    rw [run_append, run_append, e1]
    dsimp only
    rw [e2]
    dsimp only
    rw [e3]
    simp
  refine ⟨?_, ?_⟩
  · rw [hrun]
    rfl
  · rw [hrun]
    rfl

/-- Witness for `claim1_one_dispatch`: a session with chunks `[1, 2]`, one
redundant extra stop, started at 0 and finalized at 500. -/
theorem claim1_one_dispatch_witness :
    transportCalls (run defaultCfg (sessionTrace 0 100 200 [1, 2] 1 500) initState).2
      = [Input.audio ⟨0, [1, 2]⟩]
    ∧ (run defaultCfg (sessionTrace 0 100 200 [1, 2] 1 500) initState).1.pendingAudioSubmit
      = false :=
  claim1_one_dispatch 0 100 200 500 [1, 2] 1 (by decide) (by decide)
